/-
Verification of the petty-cash ledger core (src/app.py) against its
natural-language specification.

Shallow embedding choices:
* A stored row ("Transaction") is modelled by `Row`.  The `date` cell is
  modelled as `Option Date`: `some d` stands for a cell whose string the
  pandas parser `pd.to_datetime(..., errors="coerce")` turns into the
  calendar date `d`, and `none` for an empty/unparseable cell (NaT).
* Money amounts are modelled as exact rationals (the source uses floats).
* `df.sort_values("date_ts")` is modelled as a stable sort ascending on
  the parsed date with NaT keys placed last (pandas default
  `na_position="last"`); chronological order on timestamps coincides with
  lexicographic order on (year, month, day).
-/
import Mathlib

namespace PettyCash

/-- A calendar date as produced by the pandas datetime parser. -/
structure Date where
  year : Int
  month : Nat
  day : Nat
deriving DecidableEq, Repr, Inhabited

/-- One stored row of the `data` worksheet, after the canonical coercions of
`load_all_data_from_sheet` (numeric cash columns, string text columns). -/
structure Row where
  date : Option Date
  remark : String
  category : String
  mode : String
  cash_in : ℚ
  cash_out : ℚ
  attachment_path : String
deriving DecidableEq, Repr, Inhabited

/-- Chronological "less or equal" on parsed dates: lexicographic on
(year, month, day), which agrees with timestamp order. -/
def Date.leB (a b : Date) : Bool :=
  if a.year ≠ b.year then a.year < b.year
  else if a.month ≠ b.month then a.month < b.month
  else a.day ≤ b.day

/-- Sort key order used by `df.sort_values("date_ts")`: ascending on the
parsed date, with NaT (`none`) placed last (`na_position="last"`). -/
def dleB : Option Date → Option Date → Bool
  | none, none => true
  | none, some _ => false
  | some _, none => true
  | some a, some b => Date.leB a b

theorem Date.leB_total (a b : Date) : Date.leB a b = true ∨ Date.leB b a = true := by
  simp only [Date.leB]
  split_ifs <;> simp only [decide_eq_true_eq] <;> omega

theorem dleB_total (a b : Option Date) : dleB a b = true ∨ dleB b a = true := by
  cases a <;> cases b <;> simp only [dleB] <;>
    first
    | exact Or.inl trivial
    | exact Or.inr trivial
    | exact Date.leB_total _ _

theorem Date.leB_trans {a b c : Date} (h₁ : Date.leB a b = true)
    (h₂ : Date.leB b c = true) : Date.leB a c = true := by
  simp only [Date.leB] at h₁ h₂ ⊢
  split_ifs at h₁ h₂ ⊢ <;> simp only [decide_eq_true_eq] at h₁ h₂ ⊢ <;> omega

theorem dleB_trans {a b c : Option Date} (h₁ : dleB a b = true)
    (h₂ : dleB b c = true) : dleB a c = true := by
  cases a with
  | none =>
    cases b with
    | none => exact h₂
    | some bb => exact (Bool.false_ne_true h₁).elim
  | some aa =>
    cases c with
    | none => rfl
    | some cc =>
      cases b with
      | none => exact (Bool.false_ne_true h₂).elim
      | some bb => exact Date.leB_trans h₁ h₂

/-- The row comparison used by the sort: by parsed date, NaT last. -/
def rowLE (a b : Row) : Prop := dleB a.date b.date = true

instance : DecidableRel rowLE := fun a b =>
  inferInstanceAs (Decidable (dleB a.date b.date = true))

instance : IsTotal Row rowLE := ⟨fun a b => dleB_total a.date b.date⟩

instance : IsTrans Row rowLE := ⟨fun _ _ _ h₁ h₂ => dleB_trans h₁ h₂⟩

/-- `df.sort_values("date_ts")`, modelled as a stable insertion sort with
the NaT-last ascending key order. -/
def sortValues (df : List Row) : List Row := List.insertionSort rowLE df

/-- Running-balance annotation: each row is paired with
`acc + cash_in - cash_out` where `acc` is the balance carried into it.
With `acc = opening_balance` this is exactly the source's
`opening_balance + (cash_in.cumsum() - cash_out.cumsum())` per row. -/
def withBalances (acc : ℚ) : List Row → List (Row × ℚ)
  | [] => []
  | r :: t => (r, acc + r.cash_in - r.cash_out) :: withBalances (acc + r.cash_in - r.cash_out) t

/-- The `i`-th annotated balance is the opening balance plus the prefix sums
through row `i`, matching the source's cumulative-sum formula. -/
theorem withBalances_getD (acc : ℚ) (l : List Row) (i : Nat) (h : i < l.length) :
    ((withBalances acc l).getD i default).2 =
      acc + ((l.take (i + 1)).map Row.cash_in).sum
        - ((l.take (i + 1)).map Row.cash_out).sum := by
  induction l generalizing acc i with
  | nil => simp at h
  | cons r t ih =>
    cases i with
    | zero => simp [withBalances]
    | succ j =>
      have hj : j < t.length := by simpa using h
      simp only [withBalances, List.getD_cons_succ, List.take_succ_cons, List.map_cons,
        List.sum_cons]
      rw [ih _ j hj]
      ring

/-- Result of `compute_cashbook`: the sorted rows annotated with running
balances, the totals, and the final balance. -/
structure Cashbook where
  rows : List (Row × ℚ)
  total_in : ℚ
  total_out : ℚ
  final_balance : ℚ
deriving DecidableEq, Repr

/-- `compute_cashbook(df, opening_balance)` from src/app.py: empty input is
returned as-is with zero totals; otherwise the rows are sorted by parsed
date, totals are the column sums, each row is annotated with
`opening_balance + cumsum(cash_in) - cumsum(cash_out)`, and
`final_balance = opening_balance + total_in - total_out`. -/
def computeCashbook (df : List Row) (opening_balance : ℚ) : Cashbook :=
  if df.isEmpty then ⟨[], 0, 0, opening_balance⟩
  else
    let sorted := sortValues df
    let total_in := (sorted.map Row.cash_in).sum
    let total_out := (sorted.map Row.cash_out).sum
    ⟨withBalances opening_balance sorted, total_in, total_out,
      opening_balance + total_in - total_out⟩

theorem withBalances_getLast? (acc : ℚ) (l : List Row) (h : l ≠ []) :
    ((withBalances acc l).getLast?).map Prod.snd =
      some (acc + (l.map Row.cash_in).sum - (l.map Row.cash_out).sum) := by
  induction l generalizing acc with
  | nil => exact absurd rfl h
  | cons r t ih =>
    cases t with
    | nil => simp [withBalances]
    | cons s u =>
      have hne : s :: u ≠ ([] : List Row) := by simp
      have step : withBalances acc (r :: s :: u) =
          (r, acc + r.cash_in - r.cash_out) ::
            (s, acc + r.cash_in - r.cash_out + s.cash_in - s.cash_out) ::
              withBalances (acc + r.cash_in - r.cash_out + s.cash_in - s.cash_out) u := rfl
      have fold : (s, acc + r.cash_in - r.cash_out + s.cash_in - s.cash_out) ::
            withBalances (acc + r.cash_in - r.cash_out + s.cash_in - s.cash_out) u =
          withBalances (acc + r.cash_in - r.cash_out) (s :: u) := rfl
      rw [step, List.getLast?_cons_cons, fold, ih _ hne]
      congr 1
      simp only [List.map_cons, List.sum_cons]
      ring

theorem sortValues_perm (df : List Row) : List.Perm (sortValues df) df :=
  List.perm_insertionSort rowLE df

theorem sortValues_length (df : List Row) : (sortValues df).length = df.length :=
  (sortValues_perm df).length_eq

/-- C1. For every non-empty transaction set and every opening balance,
`compute_cashbook` returns `final_balance = opening_balance + total_in -
total_out`, and this value is the running balance annotated on the last
row of the sorted output. -/
theorem final_balance_eq_and_last_row (df : List Row) (ob : ℚ) (h : df ≠ []) :
    (computeCashbook df ob).final_balance =
      ob + (computeCashbook df ob).total_in - (computeCashbook df ob).total_out
    ∧ ((computeCashbook df ob).rows.getLast?).map Prod.snd =
        some ((computeCashbook df ob).final_balance) := by
  have hne : df.isEmpty = false := by simpa [List.isEmpty_iff] using h
  have hsne : sortValues df ≠ [] := by
    intro hs
    apply h
    have := sortValues_length df
    rw [hs] at this
    exact List.length_eq_zero.mp this.symm
  constructor
  · simp [computeCashbook, hne]
  · simp only [computeCashbook, hne, Bool.false_eq_true, if_false]
    exact withBalances_getLast? ob (sortValues df) hsne

/-- C1 witness: a concrete one-row cashbook. -/
theorem final_balance_eq_and_last_row_witness :
    (computeCashbook [⟨some ⟨2025, 3, 1⟩, "tea", "Tea break", "Cash", 100, 0, ""⟩] 50).final_balance =
      50 + (computeCashbook [⟨some ⟨2025, 3, 1⟩, "tea", "Tea break", "Cash", 100, 0, ""⟩] 50).total_in
        - (computeCashbook [⟨some ⟨2025, 3, 1⟩, "tea", "Tea break", "Cash", 100, 0, ""⟩] 50).total_out
    ∧ ((computeCashbook [⟨some ⟨2025, 3, 1⟩, "tea", "Tea break", "Cash", 100, 0, ""⟩] 50).rows.getLast?).map Prod.snd =
        some ((computeCashbook [⟨some ⟨2025, 3, 1⟩, "tea", "Tea break", "Cash", 100, 0, ""⟩] 50).final_balance) :=
  final_balance_eq_and_last_row _ 50 (by simp)

/-- C2. `compute_cashbook([], ob)` returns no rows and `final_balance = ob`;
hence a period computed with opening balance `F` (the previous period's
final balance) and zero transactions again has final balance `F`. -/
theorem empty_cashbook_and_chaining :
    (∀ ob : ℚ, computeCashbook [] ob = ⟨[], 0, 0, ob⟩)
    ∧ ∀ (df : List Row) (ob : ℚ),
        (computeCashbook [] ((computeCashbook df ob).final_balance)).final_balance =
          (computeCashbook df ob).final_balance :=
  ⟨fun _ => rfl, fun _ _ => rfl⟩

/-! ### Sort order of the cashbook rows (C3) -/

/-- A row whose date parses and a row whose date does not (NaT). -/
def datedRow : Row := ⟨some ⟨2025, 3, 1⟩, "tea", "Food", "Cash", 100, 0, ""⟩

def undatedRow : Row := ⟨none, "legacy", "Other", "Cash", 5, 0, ""⟩

/-- `get_previous_period` from src/app.py. -/
def getPreviousPeriod (year month : Int) : Int × Int :=
  if month = 1 then (year - 1, 12) else (year, month - 1)

/-- C9. `previous_period(year, month)` returns `(year-1, 12)` when the month
is 1 and `(year, month-1)` otherwise; in particular
`previous_period(2025, 1) = (2024, 12)` and
`previous_period(2025, 6) = (2025, 5)`. -/
theorem previous_period_spec :
    (∀ year month : Int,
        getPreviousPeriod year month =
          if month = 1 then (year - 1, 12) else (year, month - 1))
    ∧ getPreviousPeriod 2025 1 = (2024, 12)
    ∧ getPreviousPeriod 2025 6 = (2025, 5) :=
  ⟨fun _ _ => rfl, by decide, by decide⟩

/-! ### Dataset filter and the period partition (C4) -/

/-- The boolean month mask of `filter_month_df`:
`(dt.dt.year == year) & (dt.dt.month == month)`, where a NaT date compares
false against everything. -/
def monthMaskB (r : Row) (y : Int) (m : Nat) : Bool :=
  match r.date with
  | none => false
  | some d => d.year == y && d.month == m

/-- `filter_month_df` from src/app.py: the empty frame is returned as-is,
otherwise the rows matching the year+month mask are kept. -/
def filterMonthDf (df : List Row) (y : Int) (m : Nat) : List Row :=
  if df.isEmpty then df else df.filter (fun r => monthMaskB r y m)

/-- A row whose date parses to year `y` (NaT rows excluded). -/
def datedInYearB (r : Row) (y : Int) : Bool :=
  match r.date with
  | none => false
  | some d => d.year == y

theorem filterMonthDf_eq_filter (df : List Row) (y : Int) (m : Nat) :
    filterMonthDf df y m = df.filter (fun r => monthMaskB r y m) := by
  cases df <;> simp [filterMonthDf]

theorem monthMask_year (r : Row) (y : Int) (m : Nat)
    (h : monthMaskB r y m = true) : datedInYearB r y = true := by
  cases hd : r.date with
  | none => simp [monthMaskB, hd] at h
  | some d =>
    simp only [monthMaskB, hd, Bool.and_eq_true] at h
    simp [datedInYearB, hd, h.1]

theorem flatMap_filter_cons_of_neg (blk : List Nat) (f : Nat → Row → Bool)
    (r : Row) (t : List Row) (h : ∀ i ∈ blk, f i r = false) :
    blk.flatMap (fun i => (r :: t).filter (f i)) =
      blk.flatMap (fun i => t.filter (f i)) := by
  induction blk with
  | nil => rfl
  | cons j blk ih =>
    have hj : f j r = false := h j (List.mem_cons_self j blk)
    rw [List.flatMap_cons, List.flatMap_cons,
      List.filter_cons_of_neg (by simp [hj]),
      ih (fun i hi => h i (List.mem_cons_of_mem j hi))]

theorem monthMask_of_ne (r : Row) (y : Int) (m : Nat) (d : Date)
    (hd : r.date = some d) (hm : d.month ≠ m) : monthMaskB r y m = false := by
  simp [monthMaskB, hd, hm]

/-- Adding one row dated in year `y` with a valid month contributes exactly
one occurrence to the per-month union over that year. -/
theorem flatMap_months_cons (y : Int) (r : Row) (t : List Row) (d : Date)
    (hd : r.date = some d) (hy : d.year = y) (h1 : 1 ≤ d.month) (h2 : d.month ≤ 12) :
    List.Perm
      ((List.range 12).flatMap (fun i => (r :: t).filter (fun s => monthMaskB s y (i + 1))))
      (r :: (List.range 12).flatMap (fun i => t.filter (fun s => monthMaskB s y (i + 1)))) := by
  set j := d.month - 1 with hj
  have hsplit : List.range 12 =
      (List.range j ++ [j]) ++ (List.range (11 - j)).map ((j + 1) + ·) := by
    have h12 : 12 = (j + 1) + (11 - j) := by omega
    have hr1 : List.range (j + 1) = List.range j ++ [j] := by
      simpa using List.range_succ (n := j)
    rw [h12, List.range_add, hr1]
  have hA : (List.range j).flatMap (fun i => (r :: t).filter (fun s => monthMaskB s y (i + 1))) =
      (List.range j).flatMap (fun i => t.filter (fun s => monthMaskB s y (i + 1))) := by
    refine flatMap_filter_cons_of_neg _ _ _ _ (fun i hi => ?_)
    have hlt : i < j := List.mem_range.mp hi
    exact monthMask_of_ne r y (i + 1) d hd (by omega)
  have hB : ((List.range (11 - j)).map ((j + 1) + ·)).flatMap
        (fun i => (r :: t).filter (fun s => monthMaskB s y (i + 1))) =
      ((List.range (11 - j)).map ((j + 1) + ·)).flatMap
        (fun i => t.filter (fun s => monthMaskB s y (i + 1))) := by
    refine flatMap_filter_cons_of_neg _ _ _ _ (fun i hi => ?_)
    obtain ⟨i', hi', rfl⟩ := List.mem_map.mp hi
    exact monthMask_of_ne r y ((j + 1) + i' + 1) d hd (by omega)
  have hmid : (r :: t).filter (fun s => monthMaskB s y (j + 1)) =
      r :: t.filter (fun s => monthMaskB s y (j + 1)) := by
    refine List.filter_cons_of_pos ?_
    have hjm : j + 1 = d.month := by omega
    simp [monthMaskB, hd, hjm, hy]
  rw [hsplit]
  simp only [List.flatMap_append, List.flatMap_cons, List.flatMap_nil, List.append_nil]
  rw [hA, hB, hmid]
  simp only [List.append_assoc, List.cons_append]
  exact List.perm_middle

/-- The per-month union over a year is a permutation of the rows dated in
that year. -/
theorem months_partition (df : List Row) (y : Int)
    (hvalid : ∀ r ∈ df, ∀ d : Date, r.date = some d → 1 ≤ d.month ∧ d.month ≤ 12) :
    List.Perm
      ((List.range 12).flatMap (fun i => df.filter (fun s => monthMaskB s y (i + 1))))
      (df.filter (fun s => datedInYearB s y)) := by
  induction df with
  | nil => simp
  | cons r t ih =>
    have hvt : ∀ s ∈ t, ∀ d : Date, s.date = some d → 1 ≤ d.month ∧ d.month ≤ 12 :=
      fun s hs => hvalid s (List.mem_cons_of_mem r hs)
    by_cases hy : datedInYearB r y = true
    · cases hdd : r.date with
      | none => simp [datedInYearB, hdd] at hy
      | some d =>
        have hyy : d.year = y := by
          simpa [datedInYearB, hdd] using hy
        obtain ⟨h1, h2⟩ := hvalid r (List.mem_cons_self r t) d hdd
        rw [List.filter_cons_of_pos (by simp [hy])]
        exact (flatMap_months_cons y r t d hdd hyy h1 h2).trans ((ih hvt).cons r)
    · have hmask : ∀ i ∈ List.range 12, monthMaskB r y (i + 1) = false := by
        intro i _
        cases hmm : monthMaskB r y (i + 1) with
        | false => rfl
        | true => exact absurd (monthMask_year r y (i + 1) hmm) hy
      rw [flatMap_filter_cons_of_neg _ _ _ _ hmask,
        List.filter_cons_of_neg (by simpa using hy)]
      exact ih hvt

/-- C4. The period filter partitions a year: the union of
`filter_month_df` over the 12 months of year `y` is exactly (as a
permutation) the rows whose date parses to year `y`, and a row with an
unparseable date (`NaT`) belongs to the filtered subset of no period at
all.  The hypothesis records that months produced by the pandas date
parser always lie in 1..12. -/
theorem filter_month_partition (df : List Row) (y : Int)
    (hvalid : ∀ r ∈ df, ∀ d : Date, r.date = some d → 1 ≤ d.month ∧ d.month ≤ 12) :
    List.Perm
      ((List.range 12).flatMap (fun i => filterMonthDf df y (i + 1)))
      (df.filter (fun r => datedInYearB r y))
    ∧ ∀ r ∈ df, r.date = none → ∀ (y' : Int) (m' : Nat), r ∉ filterMonthDf df y' m' := by
  constructor
  · simp only [filterMonthDf_eq_filter]
    exact months_partition df y hvalid
  · intro r _ hnone y' m' hmem
    rw [filterMonthDf_eq_filter] at hmem
    have hmask := List.of_mem_filter hmem
    simp [monthMaskB, hnone] at hmask

/-- A concrete dated row for the C4 witness. -/
def mayRow : Row := ⟨some ⟨2025, 5, 10⟩, "water", "Water can", "Cash", 0, 30, ""⟩

/-- C4 witness: the partition at the concrete one-row dataset. -/
theorem filter_month_partition_witness :
    List.Perm
      ((List.range 12).flatMap (fun i => filterMonthDf [mayRow] 2025 (i + 1)))
      ([mayRow].filter (fun r => datedInYearB r 2025)) := by
  refine (filter_month_partition [mayRow] 2025 ?_).1
  intro r hr d hd
  rw [List.mem_singleton] at hr
  subst hr
  have hdd : some (⟨2025, 5, 10⟩ : Date) = some d := hd
  injection hdd with hdd
  subst hdd
  exact ⟨by decide, by decide⟩

/-! ### Reconciliation layer: bulk period edit (C5, C10) and period delete (C8) -/

/-- One row of the `st.data_editor` table: exactly the editable columns
`["date", "remark", "category", "mode", "cash_in", "cash_out"]` —
`attachment_path` is not presented for editing. -/
structure EditedRow where
  date : Option Date
  remark : String
  category : String
  mode : String
  cash_in : ℚ
  cash_out : ℚ
deriving DecidableEq, Repr

inductive EditError where
  | reconciliationConflict
deriving DecidableEq, Repr

/-- Overwrite the editable columns of a stored row with an edited row,
keeping `attachment_path` (it is not among `editable_cols`). -/
def applyEdit (r : Row) (e : EditedRow) : Row :=
  { date := e.date, remark := e.remark, category := e.category, mode := e.mode,
    cash_in := e.cash_in, cash_out := e.cash_out,
    attachment_path := r.attachment_path }

/-- `df_all_latest.loc[month_idx, col] = edited_df[col].values`: the k-th row
of the full set matching the period mask receives the k-th edited row's
editable columns; all other rows are kept verbatim. -/
def mergeEdits (y : Int) (m : Nat) : List Row → List EditedRow → List Row
  | [], _ => []
  | r :: t, es =>
    if monthMaskB r y m then
      (match es with
       | e :: es' => applyEdit r e :: mergeEdits y m t es'
       | [] => r :: mergeEdits y m t [])
    else r :: mergeEdits y m t es

/-- The "Save changes from table" handler over a freshly loaded full set:
if the number of rows currently in the period differs from the number of
edited rows it fails with the reconciliation conflict
("Row count mismatch while saving") and nothing is saved; otherwise the
edited columns are merged positionally and the full set is written back. -/
def editTableSave (store : List Row) (edited : List EditedRow) (y : Int) (m : Nat) :
    Except EditError (List Row) :=
  if store.countP (fun r => monthMaskB r y m) ≠ edited.length then
    .error .reconciliationConflict
  else
    .ok (mergeEdits y m store edited)

/-- The sheet content after the save handler runs: unchanged when the
handler errors (no call to `save_all_data_to_sheet`), the merged set
otherwise. -/
def editTableSaveStore (store : List Row) (edited : List EditedRow) (y : Int) (m : Nat) :
    List Row :=
  match editTableSave store edited y m with
  | .error _ => store
  | .ok new => new

/-- C5. A bulk period edit whose row count differs from the current number
of rows in the target period raises the reconciliation conflict and
performs no write: the persisted dataset is exactly the old one. -/
theorem edit_mismatch_conflict_no_write (store : List Row) (edited : List EditedRow)
    (y : Int) (m : Nat)
    (h : store.countP (fun r => monthMaskB r y m) ≠ edited.length) :
    editTableSave store edited y m = .error .reconciliationConflict
    ∧ editTableSaveStore store edited y m = store := by
  constructor
  · simp [editTableSave, h]
  · simp [editTableSaveStore, editTableSave, h]

/-- An edited row used by the C5 witness. -/
def conflictEdit : EditedRow := ⟨some ⟨2025, 3, 2⟩, "postage", "Courier services", "Cash", 0, 60⟩

/-- C5 witness: editing one row into an empty period conflicts and leaves
the store untouched. -/
theorem edit_mismatch_conflict_no_write_witness :
    editTableSave [] [conflictEdit] 2025 3 = .error .reconciliationConflict
    ∧ editTableSaveStore [] [conflictEdit] 2025 3 = [] :=
  edit_mismatch_conflict_no_write [] [conflictEdit] 2025 3 (by decide)

theorem mergeEdits_attachment (y : Int) (m : Nat) :
    ∀ (store : List Row) (es : List EditedRow),
      (mergeEdits y m store es).map Row.attachment_path = store.map Row.attachment_path := by
  intro store
  induction store with
  | nil => intro es; rfl
  | cons r t ih =>
    intro es
    by_cases hr : monthMaskB r y m = true
    · cases es with
      | nil => simp [mergeEdits, hr, ih]
      | cons e es' => simp [mergeEdits, hr, applyEdit, ih]
    · simp [mergeEdits, hr, ih]

/-- C10. A matching-count bulk period edit writes back only the editable
columns: the `attachment_path` of every row of the written-back dataset —
including the edited rows of the target period — equals that of the
corresponding row of the old dataset. -/
theorem edit_match_preserves_attachments (store : List Row) (edited : List EditedRow)
    (y : Int) (m : Nat)
    (h : store.countP (fun r => monthMaskB r y m) = edited.length) :
    ∃ out, editTableSave store edited y m = .ok out
      ∧ out.map Row.attachment_path = store.map Row.attachment_path := by
  refine ⟨mergeEdits y m store edited, ?_, mergeEdits_attachment y m store edited⟩
  simp [editTableSave, h]

/-- A stored row with an attachment, used by the C10 witness. -/
def marchRow : Row :=
  ⟨some ⟨2025, 3, 5⟩, "stationery", "Stationeries", "Bank", 0, 200, "attachments/bill.png"⟩

/-- An edited row used by the C10 witness. -/
def tableEdit : EditedRow := ⟨some ⟨2025, 3, 6⟩, "stationery", "Stationeries", "UPI", 0, 250⟩

/-- C10 witness: a one-row period edit with matching counts keeps the
attachment path. -/
theorem edit_match_preserves_attachments_witness :
    ∃ out, editTableSave [marchRow] [tableEdit] 2025 3 = .ok out
      ∧ out.map Row.attachment_path = [marchRow].map Row.attachment_path :=
  edit_match_preserves_attachments [marchRow] [tableEdit] 2025 3 (by decide)

/-- `delete_month_from_sheet` from src/app.py: reload-then-filter — an empty
set is left alone, otherwise every row matching the period mask is removed
and the remainder written back. -/
def deleteMonthFromSheet (store : List Row) (y : Int) (m : Nat) : List Row :=
  if store.isEmpty then store
  else store.filter (fun r => !(monthMaskB r y m))

theorem deleteMonthFromSheet_eq_filter (store : List Row) (y : Int) (m : Nat) :
    deleteMonthFromSheet store y m = store.filter (fun r => !(monthMaskB r y m)) := by
  cases store <;> simp [deleteMonthFromSheet]

/-- C8. The period delete removes exactly the rows whose parsed date falls
in the target period: the result is a sublist of the old dataset (all
surviving rows present, unchanged and in order), a row survives iff it
does not match the period mask — with multiplicity — and every row with an
unparseable date survives. -/
theorem delete_month_spec (store : List Row) (y : Int) (m : Nat) :
    List.Sublist (deleteMonthFromSheet store y m) store
    ∧ (∀ r : Row, r ∈ deleteMonthFromSheet store y m ↔
        r ∈ store ∧ monthMaskB r y m = false)
    ∧ (∀ r : Row, monthMaskB r y m = false →
        (deleteMonthFromSheet store y m).count r = store.count r)
    ∧ ∀ r ∈ store, r.date = none → r ∈ deleteMonthFromSheet store y m := by
  rw [deleteMonthFromSheet_eq_filter]
  refine ⟨List.filter_sublist store, fun r => ?_, fun r hr => ?_, fun r hr hnone => ?_⟩
  · rw [List.mem_filter]
    simp [Bool.not_eq_true']
  · rw [List.count_filter (by simp [hr])]
  · rw [List.mem_filter]
    exact ⟨hr, by simp [monthMaskB, hnone]⟩

/-- C8 witness: deleting March 2025 at a concrete two-row store. -/
theorem delete_month_spec_witness :
    List.Sublist (deleteMonthFromSheet [datedRow, undatedRow] 2025 3) [datedRow, undatedRow] :=
  (delete_month_spec [datedRow, undatedRow] 2025 3).1

/-! ### Import normalizer and import handler (C6, C7) -/

/-- An input cell of an imported CSV/Excel table, abstracting the pandas
value coercions: `vDate d` is a cell that `pd.to_datetime(...,
errors="coerce")` parses to the calendar date `d`; `vNum q` a cell that
`pd.to_numeric(..., errors="coerce")` reads as the number `q`; `vStr s` a
text cell that parses neither as a date nor as a number; `vNone` a
missing cell (NaN — in particular every cell of a canonical column absent
from the import, which pandas NaN-fills when the first mapped column sets
the row index). -/
inductive CellVal where
  | vStr (s : String)
  | vNum (q : ℚ)
  | vDate (d : Date)
  | vNone
deriving DecidableEq, Repr

/-- `pd.to_datetime(column, errors="coerce")` on one cell. -/
def toDate : CellVal → Option Date
  | .vDate d => some d
  | _ => none

/-- `pd.to_numeric(column, errors="coerce").fillna(0.0)` on one cell. -/
def toNum : CellVal → ℚ
  | .vNum q => q
  | _ => 0

/-- `column.astype(str)` on one cell.  A missing value stringifies to
"nan" — pandas renders NaN this way, and `astype(str)` runs BEFORE the
`.fillna(...)` calls of `normalize_imported_dataframe`, which therefore
never fire.  Text rendering of numbers and dates is abstracted. -/
def toStr : CellVal → String
  | .vStr s => s
  | .vNum q => toString q
  | .vDate d => toString d.year ++ "-" ++ toString d.month ++ "-" ++ toString d.day
  | .vNone => "nan"

/-- Python's `str.strip()`: drop leading and trailing whitespace. -/
def strTrim (s : String) : String :=
  ⟨((s.data.dropWhile Char.isWhitespace).reverse.dropWhile Char.isWhitespace).reverse⟩

/-- Python's `str.lower()` on ASCII headers. -/
def strLower (s : String) : String :=
  ⟨s.data.map Char.toLower⟩

/-- The `col_map` alias dictionary of `normalize_imported_dataframe`,
keyed by the stripped, lower-cased source header. -/
def colMap : String → Option String
  | "date" => some "date"
  | "remark" => some "remark"
  | "narration" => some "remark"
  | "description" => some "remark"
  | "category" => some "category"
  | "mode" => some "mode"
  | "payment mode" => some "mode"
  | "cash in" => some "cash_in"
  | "cash_in" => some "cash_in"
  | "cashin" => some "cash_in"
  | "cash out" => some "cash_out"
  | "cash_out" => some "cash_out"
  | "cashout" => some "cash_out"
  | "attachment_path" => some "attachment_path"
  | "attachment" => some "attachment_path"
  | "file" => some "attachment_path"
  | _ => none

/-- An imported table: a header row and the data rows (each row's cells
positionally aligned with the headers). -/
structure RawTable where
  headers : List String
  rows : List (List CellVal)
deriving DecidableEq, Repr

/-- Index of the source column feeding canonical column `t`: the loop
`for col in raw_df.columns: if lc in col_map: df[target] = raw_df[col]`
assigns in header order, so the LAST alias present wins. -/
def srcIdx (headers : List String) (t : String) : Option Nat :=
  (List.range headers.length).foldl
    (fun acc j =>
      if colMap (strLower (strTrim (headers.getD j ""))) = some t then some j else acc)
    none

/-- The cell feeding canonical column `t` in a given data row; a canonical
column with no mapped source column is entirely missing (NaN). -/
def cellFor (headers : List String) (cells : List CellVal) (t : String) : CellVal :=
  match srcIdx headers t with
  | some j => cells.getD j .vNone
  | none => .vNone

/-- One output row of `normalize_imported_dataframe`. -/
def normalizeRow (headers : List String) (cells : List CellVal) : Row :=
  { date := toDate (cellFor headers cells "date")
  , remark := toStr (cellFor headers cells "remark")
  , category := toStr (cellFor headers cells "category")
  , mode := toStr (cellFor headers cells "mode")
  , cash_in := toNum (cellFor headers cells "cash_in")
  , cash_out := toNum (cellFor headers cells "cash_out")
  , attachment_path := toStr (cellFor headers cells "attachment_path") }

/-- Whether any source header maps to a canonical column.  If none does,
no assignment `df[target] = raw_df[col]` ever runs, the normalized frame
keeps its empty row index, and the result has zero rows regardless of the
raw row count. -/
def anyMapped (headers : List String) : Bool :=
  headers.any (fun h => (colMap (strLower (strTrim h))).isSome)

/-- `normalize_imported_dataframe` from src/app.py. -/
def normalizeImportedRows (raw : RawTable) : List Row :=
  if anyMapped raw.headers then raw.rows.map (normalizeRow raw.headers) else []

inductive ImportError where
  | noValidDates
deriving DecidableEq, Repr

/-- The "Import file now" handler.  Its guard is
`norm_df["date"].isna().all()`; but `normalize_imported_dataframe` has
already stringified the date column (`dt.dt.date.astype(str)`, with "NaT"
replaced by ""), so that column holds plain strings, no entry of which is
NaN — hence the guard is true exactly when the normalized frame has no
rows.  Otherwise the (freshly loaded) full set is written back with the
normalized rows appended, after stripping the target period when
`replace` is selected. -/
def importNow (store : List Row) (raw : RawTable) (replaceExisting : Bool)
    (y : Int) (m : Nat) : Except ImportError (List Row) :=
  let norm := normalizeImportedRows raw
  if norm.isEmpty then .error .noValidDates
  else if replaceExisting then .ok (store.filter (fun r => !(monthMaskB r y m)) ++ norm)
  else .ok (store ++ norm)

/-- The sheet content after the import handler runs: unchanged on error,
the new full set otherwise. -/
def importNowStore (store : List Row) (raw : RawTable) (replaceExisting : Bool)
    (y : Int) (m : Nat) : List Row :=
  match importNow store raw replaceExisting y m with
  | .error _ => store
  | .ok new => new

/-- An imported batch whose only row has an unparseable date. -/
def badDateTable : RawTable := ⟨["date", "remark"], [[.vStr "not-a-date", .vStr "misc"]]⟩

/-- C6 evaluation at the failing input: a one-row batch in which EVERY
date is unparseable is NOT rejected — the guard
`norm_df["date"].isna().all()` never fires on a non-empty normalized
frame because normalization already turned the dates into strings — and
the handler writes the row (with an empty date marker) into the store. -/
theorem import_all_unparseable_not_rejected :
    importNow [] badDateTable false 2025 3 =
      .ok [⟨none, "misc", "nan", "nan", 0, 0, "nan"⟩]
    ∧ importNowStore [] badDateTable false 2025 3 =
        [⟨none, "misc", "nan", "nan", 0, 0, "nan"⟩]
    ∧ importNowStore [] badDateTable false 2025 3 ≠ [] := by
  refine ⟨rfl, by decide, by decide⟩

/-- An imported batch with headers "Date", "Cash In" and "Notes" and no
"mode" column. -/
def cashInTable : RawTable :=
  ⟨["Date", "Cash In", "Notes"], [[.vDate ⟨2025, 3, 1⟩, .vNum 100, .vStr "hello"]]⟩

/-- C7 evaluation at the failing input: "Cash In" does map to `cash_in`
case-insensitively and the unmapped "Notes" column is dropped, but a
missing "mode" column yields the string "nan" on every row — the
NaN-filled column is stringified by `astype(str)` before
`.fillna("Cash")` runs — not the documented default "Cash". -/
theorem normalize_missing_mode_is_nan_not_cash :
    normalizeImportedRows cashInTable =
      [⟨some ⟨2025, 3, 1⟩, "nan", "nan", "nan", 100, 0, "nan"⟩]
    ∧ (normalizeImportedRows cashInTable).map Row.mode ≠ ["Cash"] := by
  refine ⟨by decide, by decide⟩

end PettyCash
